import Mathlib

/-!
Shallow embedding of the registry subsystem of the xk6-browser repository
(`browser/registry.go` together with the `otel` and `env` packages), and
proofs of the specified properties about it.

Go strings are embedded as Lean `String` (a sequence of Unicode characters;
Go's byte-level view only differs on non-ASCII data, which none of the
verified properties touch).  Go's `(string, bool)` environment lookups are
embedded as `Option String`.  Fallible construction functions return
`Except String` carrying the Go error message.
-/

set_option autoImplicit false
set_option maxRecDepth 8192

namespace XK6

/-- Embeds `env.LookupFunc`: a function to look up a key from the environment. -/
abbrev LookupFunc : Type := String → Option String

/-- Embeds `env.InstanceScenarios`. -/
def InstanceScenarios : String := "K6_INSTANCE_SCENARIOS"

/-- Embeds `env.WebSocketURLs`. -/
def WebSocketURLs : String := "K6_BROWSER_WS_URL"

/-- Modelled from the spec: the tracing-enabled boolean flag key (the `env`
constant referenced by `isTracingEnabled` is not among the provided sources;
only its distinctness from the other keys matters here). -/
def EnableTracing : String := "K6_BROWSER_TRACING_ENABLED"

/-- Modelled from the spec: the tracing exporter endpoint key (named in the
error message of `newTracesRegistry`). -/
def TracingEndpoint : String := "K6_BROWSER_TRACING_ENDPOINT"

/-- Modelled from the spec: the tracing wire-protocol key (named in the
error message of `newTracesRegistry`). -/
def TracingProto : String := "K6_BROWSER_TRACING_PROTO"

/-- Modelled from the spec: the tracing insecure-transport flag key. -/
def TracingInsecure : String := "K6_BROWSER_TRACING_INSECURE"

/-- The double-quote character. -/
def dq : Char := Char.ofNat 34

/-- The single-quote character. -/
def sq : Char := Char.ofNat 39

/-- The backquote character. -/
def bq : Char := Char.ofNat 96

/-- The opening curly brace character. -/
def lbrace : Char := Char.ofNat 123

/-- The closing curly brace character. -/
def rbrace : Char := Char.ofNat 125

/-- Value of a hexadecimal digit. -/
def hexVal (c : Char) : Option Nat :=
  if '0' ≤ c ∧ c ≤ '9' then some (c.toNat - 48)
  else if 'a' ≤ c ∧ c ≤ 'f' then some (c.toNat - 87)
  else if 'A' ≤ c ∧ c ≤ 'F' then some (c.toNat - 55)
  else none

/-- Value of an octal digit. -/
def octVal (c : Char) : Option Nat :=
  if '0' ≤ c ∧ c ≤ '7' then some (c.toNat - 48) else none

/-- Models Go `strings.Split(s, sep)` for a single-character separator, at the
character-list level: splits around every occurrence of `sep`, keeping empty
parts; the result is always non-empty. -/
def splitOnChar (sep : Char) : List Char → List (List Char)
  | [] => [[]]
  | c :: rest =>
    if c = sep then [] :: splitOnChar sep rest
    else
      match splitOnChar sep rest with
      | h :: t => (c :: h) :: t
      | [] => [[c]]

/-- Models Go `strings.TrimSpace` (ASCII whitespace; the Unicode space
characters Go additionally trims do not occur in the verified properties). -/
def isSpaceChar (c : Char) : Bool :=
  c = ' ' || c = Char.ofNat 9 || c = Char.ofNat 10 ||
  c = Char.ofNat 11 || c = Char.ofNat 12 || c = Char.ofNat 13

/-- Models Go `strings.TrimSpace`. -/
def trimSpace (s : String) : String :=
  String.mk (((s.toList.dropWhile isSpaceChar).reverse.dropWhile isSpaceChar).reverse)

/-- Models Go `strings.ToLower` (ASCII; non-ASCII case mappings do not occur
in the verified properties). -/
def lowerAscii (s : String) : String :=
  String.mk (s.toList.map Char.toLower)

/-- Models Go `strconv.ParseBool`: accepts exactly
`1, t, T, TRUE, true, True, 0, f, F, FALSE, false, False`. -/
def goParseBool (s : String) : Option Bool :=
  if s = "1" ∨ s = "t" ∨ s = "T" ∨ s = "TRUE" ∨ s = "true" ∨ s = "True" then some true
  else if s = "0" ∨ s = "f" ∨ s = "F" ∨ s = "FALSE" ∨ s = "false" ∨ s = "False" then some false
  else none

/-- Models the escape-sequence handling of Go `strconv.UnquoteChar` after a
backslash has been consumed: returns the decoded character and the remaining
input, or `none` on a syntax error.  `quote` is the surrounding quote
character (an escaped quote is only legal inside its own quote kind). -/
def unesc (quote : Char) : List Char → Option (Char × List Char)
  | [] => none
  | c :: cs =>
    if c = 'a' then some (Char.ofNat 7, cs)
    else if c = 'b' then some (Char.ofNat 8, cs)
    else if c = 'f' then some (Char.ofNat 12, cs)
    else if c = 'n' then some (Char.ofNat 10, cs)
    else if c = 'r' then some (Char.ofNat 13, cs)
    else if c = 't' then some (Char.ofNat 9, cs)
    else if c = 'v' then some (Char.ofNat 11, cs)
    else if c = '\\' then some ('\\', cs)
    else if c = dq ∨ c = sq then (if c = quote then some (c, cs) else none)
    else if c = 'x' then
      match cs with
      | h1 :: h2 :: cs2 =>
        match hexVal h1, hexVal h2 with
        | some a, some b => some (Char.ofNat (16 * a + b), cs2)
        | _, _ => none
      | _ => none
    else if c = 'u' then
      match cs with
      | h1 :: h2 :: h3 :: h4 :: cs2 =>
        match hexVal h1, hexVal h2, hexVal h3, hexVal h4 with
        | some a, some b, some c3, some d =>
          let n := 4096 * a + 256 * b + 16 * c3 + d
          if Nat.isValidChar n then some (Char.ofNat n, cs2) else none
        | _, _, _, _ => none
      | _ => none
    else if c = 'U' then
      match cs with
      | h1 :: h2 :: h3 :: h4 :: h5 :: h6 :: h7 :: h8 :: cs2 =>
        match hexVal h1, hexVal h2, hexVal h3, hexVal h4,
              hexVal h5, hexVal h6, hexVal h7, hexVal h8 with
        | some a, some b, some c3, some d, some e, some f, some g, some h =>
          let n := ((((((a * 16 + b) * 16 + c3) * 16 + d) * 16 + e) * 16 + f) * 16 + g) * 16 + h
          if Nat.isValidChar n then some (Char.ofNat n, cs2) else none
        | _, _, _, _, _, _, _, _ => none
      | _ => none
    else
      match octVal c, cs with
      | some o1, d2 :: d3 :: cs2 =>
        match octVal d2, octVal d3 with
        | some o2, some o3 =>
          let n := 64 * o1 + 8 * o2 + o3
          if n ≤ 255 then some (Char.ofNat n, cs2) else none
        | _, _ => none
      | _, _ => none

/-- Models the body of a quoted Go string literal after the opening quote:
consumes characters and escape sequences up to the closing quote, which must
be the last character of the input (Go `strconv.Unquote` rejects trailing
data after the literal).  The `Nat` argument is recursion fuel, always
sufficient when at least `length + 1`. -/
def unquoteBody (quote : Char) : Nat → List Char → Option (List Char)
  | 0, _ => none
  | _ + 1, [] => none
  | fuel + 1, c :: cs =>
    if c = quote then (if cs.isEmpty then some [] else none)
    else if c = Char.ofNat 10 then none
    else if c = '\\' then
      match unesc quote cs with
      | some (r, cs2) => (unquoteBody quote fuel cs2).map (fun o => r :: o)
      | none => none
    else (unquoteBody quote fuel cs).map (fun o => c :: o)

/-- Models Go `strconv.Unquote`: interprets `s` as a single-quoted,
double-quoted, or backquoted Go string literal, returning the string value
that `s` quotes, or `none` on a syntax error.  In a backquoted (raw) literal
no backquote may occur and carriage returns are discarded; a single-quoted
literal must contain exactly one character. -/
def unquote (s : String) : Option String :=
  match s.toList with
  | [] => none
  | [_] => none
  | q :: rest =>
    if q = bq then
      match rest.getLast? with
      | some l =>
        if l = bq then
          let inner := rest.dropLast
          if inner.contains bq then none
          else some (String.mk (inner.filter (fun c => c != Char.ofNat 13)))
        else none
      | none => none
    else if q = dq then
      (unquoteBody dq (rest.length + 1) rest).map String.mk
    else if q = sq then
      match unquoteBody sq (rest.length + 1) rest with
      | some o => if o.length = 1 then some (String.mk o) else none
      | none => none
    else none

/-- Embeds `pidRegistry`: keeps track of the launched browser process IDs.
The mutex only serializes access and has no sequential content. -/
structure pidRegistry where
  ids : List Int
deriving DecidableEq

/-- Embeds `pidRegistry.registerPid`: appends the launched process ID. -/
def registerPid (r : pidRegistry) (pid : Int) : pidRegistry :=
  { ids := r.ids ++ [pid] }

/-- Embeds `pidRegistry.Pids`: returns a snapshot copy of the stored IDs
(`make` + `copy` in Go produces a list with the same elements in the same
order). -/
def Pids (r : pidRegistry) : List Int :=
  r.ids

/-- Embeds `remoteRegistry`: the remote-browser flag and the WS URL list. -/
structure remoteRegistry where
  isRemote : Bool
  wsURLs : List String
deriving DecidableEq

/-- JSON values, for the model of Go `encoding/json`. -/
inductive Json where
  | null : Json
  | bool (b : Bool) : Json
  | num (digits : String) : Json
  | str (s : String) : Json
  | arr (items : List Json) : Json
  | obj (fields : List (String × Json)) : Json

/-- JSON whitespace. -/
def jWS (c : Char) : Bool :=
  c = ' ' || c = Char.ofNat 9 || c = Char.ofNat 10 || c = Char.ofNat 13

/-- Drops leading JSON whitespace. -/
def skipWS (cs : List Char) : List Char :=
  cs.dropWhile jWS

/-- Models the body of a JSON string after the opening quote: returns the
decoded content and the input remaining after the closing quote.  Invalid
`\u` surrogate values decode to U+FFFD as in Go `encoding/json`.  The `Nat`
argument is recursion fuel, sufficient when at least `length + 1`. -/
def jstrBody : Nat → List Char → Option (List Char × List Char)
  | 0, _ => none
  | _ + 1, [] => none
  | fuel + 1, c :: cs =>
    if c = dq then some ([], cs)
    else if c = '\\' then
      match cs with
      | [] => none
      | e :: cs2 =>
        let dec : Option (Char × List Char) :=
          if e = dq then some (dq, cs2)
          else if e = '\\' then some ('\\', cs2)
          else if e = '/' then some ('/', cs2)
          else if e = 'b' then some (Char.ofNat 8, cs2)
          else if e = 'f' then some (Char.ofNat 12, cs2)
          else if e = 'n' then some (Char.ofNat 10, cs2)
          else if e = 'r' then some (Char.ofNat 13, cs2)
          else if e = 't' then some (Char.ofNat 9, cs2)
          else if e = 'u' then
            match cs2 with
            | h1 :: h2 :: h3 :: h4 :: cs3 =>
              match hexVal h1, hexVal h2, hexVal h3, hexVal h4 with
              | some a, some b, some c3, some d =>
                let n := 4096 * a + 256 * b + 16 * c3 + d
                if Nat.isValidChar n then some (Char.ofNat n, cs3)
                else some (Char.ofNat 65533, cs3)
              | _, _, _, _ => none
            | _ => none
          else none
        match dec with
        | some (r, rest) => (jstrBody fuel rest).map (fun p => (r :: p.1, p.2))
        | none => none
    else if c.toNat < 32 then none
    else (jstrBody fuel cs).map (fun p => (c :: p.1, p.2))

/-- Parses the digits of a JSON number starting after an optional minus sign:
`('0' | [1-9][0-9]*) ('.' [0-9]+)? ([eE][+-]?[0-9]+)?`.  Returns consumed
characters and the rest. -/
def jnumTail (cs : List Char) : Option (List Char × List Char) :=
  let intPart : Option (List Char × List Char) :=
    match cs with
    | [] => none
    | c :: rest =>
      if c = '0' then some ([c], rest)
      else if c.isDigit then
        some (c :: rest.takeWhile Char.isDigit, rest.dropWhile Char.isDigit)
      else none
  match intPart with
  | none => none
  | some (ds, rest) =>
    let fracr : Option (List Char × List Char) :=
      match rest with
      | '.' :: f :: r2 =>
        if f.isDigit then
          some (ds ++ '.' :: f :: r2.takeWhile Char.isDigit, r2.dropWhile Char.isDigit)
        else none
      | '.' :: [] => none
      | _ => some (ds, rest)
    match fracr with
    | none => none
    | some (ds2, rest2) =>
      match rest2 with
      | e :: r3 =>
        if e = 'e' ∨ e = 'E' then
          let r4 := match r3 with
            | s :: r5 => if s = '+' ∨ s = '-' then (s :: [], r5) else ([], r3)
            | [] => ([], r3)
          match r4.2 with
          | d :: r6 =>
            if d.isDigit then
              some (ds2 ++ e :: r4.1 ++ d :: r6.takeWhile Char.isDigit,
                    r6.dropWhile Char.isDigit)
            else none
          | [] => none
        else some (ds2, rest2)
      | [] => some (ds2, rest2)

mutual

/-- Models Go `encoding/json` syntax: parses one JSON value, returning it and
the remaining input.  The `Nat` argument is recursion fuel. -/
def parseVal : Nat → List Char → Option (Json × List Char)
  | 0, _ => none
  | fuel + 1, cs =>
    match skipWS cs with
    | [] => none
    | c :: rest =>
      if c = 'n' then
        match rest with
        | 'u' :: 'l' :: 'l' :: r => some (Json.null, r)
        | _ => none
      else if c = 't' then
        match rest with
        | 'r' :: 'u' :: 'e' :: r => some (Json.bool true, r)
        | _ => none
      else if c = 'f' then
        match rest with
        | 'a' :: 'l' :: 's' :: 'e' :: r => some (Json.bool false, r)
        | _ => none
      else if c = dq then
        (jstrBody (rest.length + 1) rest).map (fun p => (Json.str (String.mk p.1), p.2))
      else if c = '[' then
        match skipWS rest with
        | ']' :: r => some (Json.arr [], r)
        | _ => (parseItems fuel rest).map (fun p => (Json.arr p.1, p.2))
      else if c = lbrace then
        match skipWS rest with
        | d :: r =>
          if d = rbrace then some (Json.obj [], r)
          else (parseFields fuel rest).map (fun p => (Json.obj p.1, p.2))
        | [] => none
      else if c = '-' then
        (jnumTail rest).map (fun p => (Json.num (String.mk ('-' :: p.1)), p.2))
      else if c.isDigit then
        (jnumTail (c :: rest)).map (fun p => (Json.num (String.mk p.1), p.2))
      else none

/-- Parses the comma-separated items of a non-empty JSON array up to and
including the closing bracket. -/
def parseItems : Nat → List Char → Option (List Json × List Char)
  | 0, _ => none
  | fuel + 1, cs =>
    match parseVal fuel cs with
    | none => none
    | some (v, rem) =>
      match skipWS rem with
      | ',' :: r => (parseItems fuel r).map (fun p => (v :: p.1, p.2))
      | ']' :: r => some ([v], r)
      | _ => none

/-- Parses the comma-separated fields of a non-empty JSON object up to and
including the closing brace. -/
def parseFields : Nat → List Char → Option (List (String × Json) × List Char)
  | 0, _ => none
  | fuel + 1, cs =>
    match skipWS cs with
    | c :: r0 =>
      if c = dq then
        match jstrBody (r0.length + 1) r0 with
        | none => none
        | some (k, rem) =>
          match skipWS rem with
          | ':' :: r2 =>
            match parseVal fuel r2 with
            | none => none
            | some (v, rem2) =>
              match skipWS rem2 with
              | ',' :: r3 => (parseFields fuel r3).map (fun p => ((String.mk k, v) :: p.1, p.2))
              | d :: r3 => if d = rbrace then some ([(String.mk k, v)], r3) else none
              | [] => none
          | _ => none
      else none
    | [] => none

end

/-- Models the syntax phase of Go `json.Unmarshal`: the input must be one
JSON value followed only by whitespace. -/
def parseJson (s : String) : Option Json :=
  let cs := s.toList
  match parseVal (2 * cs.length + 2) cs with
  | none => none
  | some (v, rem) => if (skipWS rem).isEmpty then some v else none

/-- Embeds the anonymous browser struct of `checkForScenarios`:
`struct { Handle string }` with JSON tag `handle`. -/
structure Browser where
  handle : String
deriving DecidableEq

/-- Embeds the anonymous scenario struct of `checkForScenarios`:
`struct { ID string; Browsers []Browser }` with JSON tags `id`, `browsers`. -/
structure Scenario where
  id : String
  browsers : List Browser
deriving DecidableEq

/-- Models Go `encoding/json` field-name matching: an exact or
ASCII-case-insensitive match of the JSON key against the field tag. -/
def keyMatch (k field : String) : Bool :=
  k == field || lowerAscii k == field

/-- Models `json.Unmarshal` decoding of one element of the `Browsers` slice:
an object whose `handle` field must be a string, unknown fields ignored,
`null` leaving the zero value. -/
def decodeBrowser : Json → Except String Browser
  | Json.null => Except.ok { handle := "" }
  | Json.obj fs =>
    fs.foldlM (fun b kv =>
      if keyMatch kv.1 "handle" then
        match kv.2 with
        | Json.str s => Except.ok { handle := s }
        | Json.null => Except.ok b
        | _ => Except.error "cannot unmarshal value into field handle of type string"
      else Except.ok b) { handle := "" }
  | _ => Except.error "cannot unmarshal value into browser struct"

/-- Models `json.Unmarshal` decoding of one scenario element: an object whose
`id` field must be a string and whose `browsers` field must be an array of
browser objects; unknown fields ignored, `null` leaving the zero value. -/
def decodeScenario : Json → Except String Scenario
  | Json.null => Except.ok { id := "", browsers := [] }
  | Json.obj fs =>
    fs.foldlM (fun s kv =>
      if keyMatch kv.1 "id" then
        match kv.2 with
        | Json.str v => Except.ok { s with id := v }
        | Json.null => Except.ok s
        | _ => Except.error "cannot unmarshal value into field id of type string"
      else if keyMatch kv.1 "browsers" then
        match kv.2 with
        | Json.arr bs => (bs.mapM decodeBrowser).map (fun l => { s with browsers := l })
        | Json.null => Except.ok s
        | _ => Except.error "cannot unmarshal value into field browsers of type slice"
      else Except.ok s) { id := "", browsers := [] }
  | _ => Except.error "cannot unmarshal value into scenario struct"

/-- Models `json.Unmarshal` decoding of the whole scenarios document: a JSON
array of scenario objects (`null` leaves the nil slice). -/
def decodeScenarios : Json → Except String (List Scenario)
  | Json.null => Except.ok []
  | Json.arr xs => xs.mapM decodeScenario
  | _ => Except.error "cannot unmarshal value into scenario slice"

/-- Models the `json.Unmarshal([]byte(scenariosJSON), &scenarios)` call of
`checkForScenarios`: JSON syntax parsing followed by decoding into the
scenario structs. -/
def parseScenariosDoc (s : String) : Except String (List Scenario) :=
  match parseJson s with
  | none => Except.error "invalid JSON syntax"
  | some v => decodeScenarios v

/-- Embeds the handle-collection loops of `checkForScenarios`: all handles
whose `strings.TrimSpace` image is non-empty, across all scenarios in order
(the original, untrimmed handle is appended). -/
def collectHandles (scenarios : List Scenario) : List String :=
  scenarios.foldl (fun acc s =>
    s.browsers.foldl (fun acc2 b =>
      if trimSpace b.handle = "" then acc2 else acc2 ++ [b.handle]) acc) []

/-- Embeds `checkForScenarios`: parses the `K6_INSTANCE_SCENARIOS` variable
if defined.  An undefined or empty value falls through; otherwise the value
is unquoted as a Go string literal and parsed as JSON, and remote mode is
enabled exactly when at least one non-blank handle is collected.  Errors
carry the Go error message (the wrapped inner messages are fixed model
strings). -/
def checkForScenarios (envLookup : LookupFunc) : Except String (Bool × List String) :=
  match envLookup InstanceScenarios with
  | none => Except.ok (false, [])
  | some scenariosJSON =>
    if scenariosJSON = "" then Except.ok (false, [])
    else
      match unquote scenariosJSON with
      | none => Except.error "unqouting K6_INSTANCE_SCENARIOS: invalid syntax"
      | some sj =>
        match parseScenariosDoc sj with
        | Except.error e => Except.error ("parsing K6_INSTANCE_SCENARIOS: " ++ e)
        | Except.ok scenarios =>
          let wsURLs := collectHandles scenarios
          if wsURLs = [] then Except.ok (false, wsURLs)
          else Except.ok (true, wsURLs)

/-- Embeds `checkForBrowserWSURLs`: reads `K6_BROWSER_WS_URL`; a value with
no comma yields the singleton list of the raw value, otherwise the value is
split on commas and a trailing empty part is dropped. -/
def checkForBrowserWSURLs (envLookup : LookupFunc) : Bool × List String :=
  match envLookup WebSocketURLs with
  | none => (false, [])
  | some wsURL =>
    if wsURL.toList.contains ',' = false then (true, [wsURL])
    else
      let parts := (splitOnChar ',' wsURL.toList).map String.mk
      (true, if parts.getLast? = some "" then parts.dropLast else parts)

/-- Embeds `newRemoteRegistry`: scenario configuration wins when it enables
remote mode; otherwise the simple WS URL list is consulted.  A scenario
parse error aborts construction. -/
def newRemoteRegistry (envLookup : LookupFunc) : Except String remoteRegistry :=
  match checkForScenarios envLookup with
  | Except.error e => Except.error e
  | Except.ok (true, wsURLs) => Except.ok { isRemote := true, wsURLs := wsURLs }
  | Except.ok (false, _) =>
    let p := checkForBrowserWSURLs envLookup
    Except.ok { isRemote := p.1, wsURLs := p.2 }

/-- Embeds `remoteRegistry.isRemoteBrowser`.  The `crypto/rand` draw is
embedded by the `draw` parameter reduced modulo the list length; `none`
models the panic `crypto/rand` raises when the bound `len(r.wsURLs)` is not
positive. -/
def isRemoteBrowser (r : remoteRegistry) (draw : Nat) : Option (String × Bool) :=
  if r.isRemote = false then some ("", false)
  else
    match r.wsURLs with
    | [] => none
    | u :: us =>
      some ((u :: us).get ⟨draw % (us.length + 1), Nat.mod_lt _ (Nat.succ_pos us.length)⟩, true)

/-- Embeds Go `context.Context` values as far as the traces registry
observes them: the nil interface value, opaque base contexts, and contexts
produced by starting a span on a parent context. -/
inductive Ctx where
  | nil : Ctx
  | base (n : Nat) : Ctx
  | withSpan (parent : Ctx) (span : Nat) : Ctx
deriving DecidableEq

/-- Embeds `otel.TraceProvider` as far as the registry observes it: the noop
provider of `otel.NewNoopTraceProvider`, or the concrete provider of
`otel.NewTraceProvider` bound to a protocol, endpoint and insecure flag. -/
inductive TraceProvider where
  | noop : TraceProvider
  | concrete (proto endpoint : String) (insecure : Bool) : TraceProvider
deriving DecidableEq

/-- Embeds the `trace` struct of the traces registry: the context wrapping
the root span, and the root span (spans are identified by the `Nat` the
allocator of `otelTrace` handed out). -/
structure trace where
  ctx : Ctx
  rootSpan : Nat
deriving DecidableEq

/-- Embeds `tracesRegistry`.  `m` embeds the Go map as an association list
with unique keys; `nextSpan` and `ended` model the ambient OpenTelemetry
tracer: `nextSpan` is the allocator for fresh span identities used by
`otel.Trace`, and `ended` records every `Span.End()` call in order, with
multiplicity. -/
structure tracesRegistry where
  ctx : Ctx
  tp : TraceProvider
  m : List (String × trace)
  nextSpan : Nat
  ended : List Nat
deriving DecidableEq

/-- Lookup in the association-list embedding of the Go map. -/
def mLookup {β : Type} : List (String × β) → String → Option β
  | [], _ => none
  | (k, v) :: rest, id => if k = id then some v else mLookup rest id

/-- Embeds `delete(m, id)` on the association-list embedding of the Go map:
every pair with the key is removed. -/
def mErase {β : Type} : List (String × β) → String → List (String × β)
  | [], _ => []
  | (k, v) :: rest, id => if k = id then mErase rest id else (k, v) :: mErase rest id

/-- Embeds `otel.Trace(ctx, name)`: starts a fresh span whose parent is the
given context and returns the derived context wrapping it, the span, and the
advanced allocator state.  (The span name plays no role in the verified
properties.) -/
def otelTrace (ctx : Ctx) (next : Nat) : Ctx × Nat × Nat :=
  (Ctx.withSpan ctx next, next, next + 1)

/-- Embeds `tracesRegistry.traceCtx`: returns the stored derived context when
an entry exists, otherwise starts one root span on the registry's base
context, stores the (context, span) pair under the id and returns the new
context. -/
def traceCtx (r : tracesRegistry) (id : String) : Ctx × tracesRegistry :=
  match mLookup r.m id with
  | some t => (t.ctx, r)
  | none =>
    let res := otelTrace r.ctx r.nextSpan
    (res.1, { r with m := (id, { ctx := res.1, rootSpan := res.2.1 }) :: r.m,
                     nextSpan := res.2.2 })

/-- Embeds `tracesRegistry.endTrace`: when an entry exists its root span is
ended (`ended` gets the span appended) and the entry is deleted; otherwise
nothing happens. -/
def endTrace (r : tracesRegistry) (id : String) : tracesRegistry :=
  match mLookup r.m id with
  | some t => { r with m := mErase r.m id, ended := r.ended ++ [t.rootSpan] }
  | none => r

/-- Embeds `isTracingEnabled`: the flag must be present and parse as boolean
true. -/
def isTracingEnabled (envLookup : LookupFunc) : Bool :=
  match envLookup EnableTracing with
  | none => false
  | some vs =>
    match goParseBool vs with
    | some v => v
    | none => false

/-- Embeds `parseTracingConfig`: endpoint, protocol and insecure flag, with
absent values read as the empty string and an unparsable insecure flag read
as false. -/
def parseTracingConfig (envLookup : LookupFunc) : String × String × Bool :=
  ((envLookup TracingEndpoint).getD "",
   (envLookup TracingProto).getD "",
   (goParseBool ((envLookup TracingInsecure).getD "")).getD false)

/-- Embeds `otel.newClient`: only the `http` protocol (compared after
`strings.ToLower`) is supported; anything else is `ErrUnsupportedProto`. -/
def newClient (proto endpoint : String) (insecure : Bool) : Except String (String × Bool) :=
  if lowerAscii proto = "http" then Except.ok (endpoint, insecure)
  else Except.error "unsupported protocol"

/-- Embeds `otel.NewTraceProvider`: builds the exporter client and wraps a
client failure as `creating exporter client`.  (The subsequent
`otlptrace.New` call never fails before network use and is embedded as
always succeeding.) -/
def NewTraceProvider (proto endpoint : String) (insecure : Bool) :
    Except String TraceProvider :=
  match newClient proto endpoint insecure with
  | Except.error e => Except.error ("creating exporter client: " ++ e)
  | Except.ok _ => Except.ok (TraceProvider.concrete proto endpoint insecure)

/-- Embeds `newTracesRegistry`.  Note that on the concrete-provider path the
Go code builds the struct without its `ctx` field, leaving the nil zero
value, which the embedding reproduces. -/
def newTracesRegistry (ctx : Ctx) (envLookup : LookupFunc) : Except String tracesRegistry :=
  if isTracingEnabled envLookup = false then
    Except.ok { ctx := ctx, tp := TraceProvider.noop, m := [], nextSpan := 0, ended := [] }
  else
    let cfg := parseTracingConfig envLookup
    if cfg.1 = "" ∨ cfg.2.1 = "" then
      Except.error "tracing is enabled but K6_BROWSER_TRACING_ENDPOINT or K6_BROWSER_TRACING_PROTO were not set"
    else
      match NewTraceProvider cfg.2.1 cfg.1 cfg.2.2 with
      | Except.error e => Except.error ("creating trace provider: " ++ e)
      | Except.ok tp =>
        Except.ok { ctx := Ctx.nil, tp := tp, m := [], nextSpan := 0, ended := [] }

/-! ### Helper lemmas -/

/-- Folding `registerPid` over a list of pids appends it to the stored ids. -/
theorem pids_foldl_aux (pids : List Int) (r : pidRegistry) :
    Pids (pids.foldl registerPid r) = r.ids ++ pids := by
  induction pids generalizing r with
  | nil => simp [Pids]
  | cons p ps ih =>
    rw [List.foldl_cons, ih (registerPid r p)]
    simp [registerPid]

/-- After erasing a key it can no longer be looked up. -/
theorem mLookup_mErase {β : Type} (m : List (String × β)) (id : String) :
    mLookup (mErase m id) id = none := by
  induction m with
  | nil => rfl
  | cons p rest ih =>
    obtain ⟨k, v⟩ := p
    by_cases h : k = id
    · simp [mErase, h, ih]
    · simp [mErase, mLookup, h, ih]

/-- `splitOnChar` never returns the empty list. -/
theorem splitOnChar_ne_nil (sep : Char) (cs : List Char) : splitOnChar sep cs ≠ [] := by
  cases cs with
  | nil => simp [splitOnChar]
  | cons c rest =>
    simp only [splitOnChar]
    split
    · simp
    · split <;> simp

/-- Splitting a list that contains the separator yields at least two parts. -/
theorem splitOnChar_length_ge_two (sep : Char) (cs : List Char)
    (h : sep ∈ cs) : 2 ≤ (splitOnChar sep cs).length := by
  induction cs with
  | nil => simp at h
  | cons c rest ih =>
    by_cases hc : c = sep
    · subst hc
      have h1 : 0 < (splitOnChar c rest).length :=
        List.length_pos.mpr (splitOnChar_ne_nil c rest)
      simp [splitOnChar]
      omega
    · have h' : sep ∈ rest := by
        rcases List.mem_cons.mp h with h0 | h0
        · exact absurd h0.symm hc
        · exact h0
      have h2 := ih h'
      cases hsp : splitOnChar sep rest with
      | nil => exact absurd hsp (splitOnChar_ne_nil sep rest)
      | cons a b =>
        rw [hsp] at h2
        simp only [splitOnChar, if_neg hc, hsp, List.length_cons] at h2 ⊢
        omega

/-! ### Claim theorems -/

/-- Claim C8: `Pids` returns a snapshot of the registered process ids in
insertion order without deduplication: after any sequence of `registerPid`
calls starting from the empty registry, `Pids` returns exactly the registered
ids, none lost and none invented. -/
theorem Pids_snapshot (pids : List Int) :
    Pids (pids.foldl registerPid { ids := [] }) = pids := by
  simpa using pids_foldl_aux pids { ids := [] }

/-- Claim C1: `traceCtx` returns the stored derived context when an entry
exists for the id (leaving the registry untouched); otherwise it starts
exactly one new root span parented to the registry's base context (not to any
per-iteration ancestor: the base context field is unchanged), stores the
(context, span) pair under the id and returns the new context; a second
sequential call with the same id then returns the stored context without
creating another span. -/
theorem traceCtx_spec (r : tracesRegistry) (id : String) :
    (∀ t, mLookup r.m id = some t → traceCtx r id = (t.ctx, r)) ∧
    (mLookup r.m id = none →
      (traceCtx r id).1 = Ctx.withSpan r.ctx r.nextSpan ∧
      (traceCtx r id).2.nextSpan = r.nextSpan + 1 ∧
      (traceCtx r id).2.ctx = r.ctx ∧
      mLookup (traceCtx r id).2.m id =
        some { ctx := (traceCtx r id).1, rootSpan := r.nextSpan } ∧
      traceCtx (traceCtx r id).2 id = ((traceCtx r id).1, (traceCtx r id).2)) := by
  constructor
  · intro t h
    simp [traceCtx, h]
  · intro h
    simp [traceCtx, h, otelTrace, mLookup]

/-- Concrete traces registry used by the witnesses. -/
def tr0 : tracesRegistry :=
  { ctx := Ctx.base 7, tp := TraceProvider.noop, m := [], nextSpan := 0, ended := [] }

/-- The registry after one `traceCtx` call on `tr0`. -/
def tr1 : tracesRegistry := (traceCtx tr0 "i1").2

/-- Witness for claim C1 at a concrete registry: a fresh id starts and stores
one span on the base context, and a repeated call on the resulting registry
returns the stored context unchanged. -/
theorem traceCtx_spec_witness :
    ((traceCtx tr0 "i1").1 = Ctx.withSpan tr0.ctx tr0.nextSpan ∧
     (traceCtx tr0 "i1").2.nextSpan = tr0.nextSpan + 1 ∧
     (traceCtx tr0 "i1").2.ctx = tr0.ctx ∧
     mLookup (traceCtx tr0 "i1").2.m "i1" =
       some { ctx := (traceCtx tr0 "i1").1, rootSpan := tr0.nextSpan } ∧
     traceCtx (traceCtx tr0 "i1").2 "i1" = ((traceCtx tr0 "i1").1, (traceCtx tr0 "i1").2)) ∧
    traceCtx tr1 "i1" = (Ctx.withSpan (Ctx.base 7) 0, tr1) :=
  ⟨(traceCtx_spec tr0 "i1").2 rfl,
   (traceCtx_spec tr1 "i1").1 { ctx := Ctx.withSpan (Ctx.base 7) 0, rootSpan := 0 } rfl⟩

/-- Claim C6: `endTrace` ends the stored span and removes the entry when one
exists and is a no-op otherwise; in particular a second call for the same id
changes nothing, so the span is ended exactly once. -/
theorem endTrace_spec (r : tracesRegistry) (id : String) :
    (∀ t, mLookup r.m id = some t →
      endTrace r id = { r with m := mErase r.m id, ended := r.ended ++ [t.rootSpan] }) ∧
    (mLookup r.m id = none → endTrace r id = r) ∧
    endTrace (endTrace r id) id = endTrace r id := by
  refine ⟨fun t h => ?_, fun h => ?_, ?_⟩
  · simp [endTrace, h]
  · simp [endTrace, h]
  · cases h : mLookup r.m id with
    | none => simp [endTrace, h]
    | some t => simp [endTrace, h, mLookup_mErase]

/-- The registry after one `traceCtx` call on `tr0` for id `a`. -/
def tr2 : tracesRegistry := (traceCtx tr0 "a").2

/-- Witness for claim C6 at a concrete registry: ending an existing entry
ends its span once and removes it, ending a missing entry is a no-op, and a
repeated `endTrace` changes nothing. -/
theorem endTrace_spec_witness :
    endTrace tr2 "a" = { tr2 with m := mErase tr2.m "a", ended := tr2.ended ++ [0] } ∧
    endTrace tr0 "a" = tr0 ∧
    endTrace (endTrace tr2 "a") "a" = endTrace tr2 "a" :=
  ⟨(endTrace_spec tr2 "a").1 { ctx := Ctx.withSpan (Ctx.base 7) 0, rootSpan := 0 } rfl,
   (endTrace_spec tr0 "a").2.1 rfl,
   (endTrace_spec tr2 "a").2.2⟩

/-- Claim C4: when the structured document does not enable remote mode,
simple-form parsing behaves as follows: an absent variable disables remote
mode; a value without a comma enables remote mode with the singleton raw
(possibly empty) value; a value with commas is split on commas and a trailing
empty part is dropped; the value consisting of a lone comma yields the
singleton empty string, not an empty set. -/
theorem checkForBrowserWSURLs_spec (env : LookupFunc) (ws : List String)
    (hs : checkForScenarios env = Except.ok (false, ws)) :
    (env WebSocketURLs = none →
      newRemoteRegistry env = Except.ok { isRemote := false, wsURLs := [] }) ∧
    (∀ s, env WebSocketURLs = some s →
      (s.toList.contains ',' = false →
        newRemoteRegistry env = Except.ok { isRemote := true, wsURLs := [s] }) ∧
      (s.toList.contains ',' = true →
        newRemoteRegistry env = Except.ok ⟨true,
          if ((splitOnChar ',' s.toList).map String.mk).getLast? = some "" then
            ((splitOnChar ',' s.toList).map String.mk).dropLast
          else (splitOnChar ',' s.toList).map String.mk⟩) ∧
      (s = "," → newRemoteRegistry env = Except.ok { isRemote := true, wsURLs := [""] })) := by
  have hnr : newRemoteRegistry env =
      Except.ok { isRemote := (checkForBrowserWSURLs env).1,
                  wsURLs := (checkForBrowserWSURLs env).2 } := by
    simp [newRemoteRegistry, hs]
  refine ⟨fun h => ?_, fun s h => ⟨fun hc => ?_, fun hc => ?_, fun hv => ?_⟩⟩
  · rw [hnr]
    have hcfw : checkForBrowserWSURLs env = (false, []) := by
      simp only [checkForBrowserWSURLs, h]
    rw [hcfw]
  · rw [hnr]
    have hcfw : checkForBrowserWSURLs env = (true, [s]) := by
      simp only [checkForBrowserWSURLs, h]
      rw [if_pos hc]
    rw [hcfw]
  · rw [hnr]
    have hcfw : checkForBrowserWSURLs env =
        (true, if ((splitOnChar ',' s.toList).map String.mk).getLast? = some "" then
            ((splitOnChar ',' s.toList).map String.mk).dropLast
          else (splitOnChar ',' s.toList).map String.mk) := by
      simp only [checkForBrowserWSURLs, h]
      rw [if_neg (show ¬(s.toList.contains ',' = false) by
        rw [hc]; exact fun hco => Bool.noConfusion hco)]
    rw [hcfw]
  · subst hv
    rw [hnr]
    have hcfw : checkForBrowserWSURLs env = (true, [""]) := by
      simp only [checkForBrowserWSURLs, h]
      rfl
    rw [hcfw]

/-- Concrete environment for the claim C4 witness: a lone-comma WS value. -/
def envC4 : LookupFunc := fun k => if k = WebSocketURLs then some "," else none

/-- Witness for claim C4: the value consisting of a lone comma yields the
singleton empty-string endpoint. -/
theorem checkForBrowserWSURLs_spec_witness :
    newRemoteRegistry envC4 = Except.ok { isRemote := true, wsURLs := [""] } :=
  (((checkForBrowserWSURLs_spec envC4 [] rfl).2 "," rfl).2.2) rfl

/-- Claim C5: traces-registry construction succeeds with the no-op provider
and an empty map whenever the tracing flag is absent or does not parse as
boolean true; when the flag is true, construction fails exactly when the
endpoint or protocol value is empty or the protocol is not the single
supported wire protocol (`http`, compared case-insensitively), and otherwise
succeeds with a concrete provider bound to that protocol, endpoint and
insecure flag. -/
theorem newTracesRegistry_spec (ctx : Ctx) (env : LookupFunc) :
    (isTracingEnabled env = false →
      newTracesRegistry ctx env =
        Except.ok { ctx := ctx, tp := TraceProvider.noop, m := [], nextSpan := 0, ended := [] }) ∧
    (isTracingEnabled env = true →
      ∀ ep proto ins, parseTracingConfig env = (ep, proto, ins) →
        ((ep = "" ∨ proto = "") →
          newTracesRegistry ctx env =
            Except.error "tracing is enabled but K6_BROWSER_TRACING_ENDPOINT or K6_BROWSER_TRACING_PROTO were not set") ∧
        (ep ≠ "" → proto ≠ "" → lowerAscii proto ≠ "http" →
          newTracesRegistry ctx env =
            Except.error "creating trace provider: creating exporter client: unsupported protocol") ∧
        (ep ≠ "" → proto ≠ "" → lowerAscii proto = "http" →
          newTracesRegistry ctx env =
            Except.ok { ctx := Ctx.nil, tp := TraceProvider.concrete proto ep ins,
                        m := [], nextSpan := 0, ended := [] })) := by
  refine ⟨fun h => ?_,
          fun h ep proto ins hc => ⟨fun h0 => ?_, fun h1 h2 h3 => ?_, fun h1 h2 h3 => ?_⟩⟩
  · simp [newTracesRegistry, h]
  · simp [newTracesRegistry, h, hc, h0]
  · simp [newTracesRegistry, NewTraceProvider, newClient, h, hc, h1, h2, h3]
  · simp [newTracesRegistry, NewTraceProvider, newClient, h, hc, h1, h2, h3]

/-- Concrete environment for the claim C5 witness: tracing enabled with a
valid endpoint, mixed-case protocol, and insecure flag. -/
def envC5 : LookupFunc := fun k =>
  if k = EnableTracing then some "true"
  else if k = TracingEndpoint then some "localhost:4318"
  else if k = TracingProto then some "HTTP"
  else if k = TracingInsecure then some "1"
  else none

/-- Witness for claim C5: a fully configured environment yields a concrete
provider bound to the configured protocol, endpoint and insecure flag. -/
theorem newTracesRegistry_spec_witness :
    newTracesRegistry (Ctx.base 0) envC5 =
      Except.ok { ctx := Ctx.nil, tp := TraceProvider.concrete "HTTP" "localhost:4318" true,
                  m := [], nextSpan := 0, ended := [] } :=
  ((((newTracesRegistry_spec (Ctx.base 0) envC5).2 rfl) "localhost:4318" "HTTP" true rfl).2.2)
    (by decide) (by decide) rfl

/-- Environment whose scenarios variable is present but empty. -/
def envC2a : LookupFunc := fun k => if k = InstanceScenarios then some "" else none

/-- Claim C2 counterexample: the structured-scenarios variable is present
with the empty string — which the claim lists as a malformed value that must
yield a parse error — yet `newRemoteRegistry` succeeds, falling through
instead of returning an error. -/
theorem checkForScenarios_empty_ok :
    envC2a InstanceScenarios = some "" ∧
    newRemoteRegistry envC2a = Except.ok { isRemote := false, wsURLs := [] } :=
  ⟨rfl, rfl⟩

/-- Claim C2 (amended): if the variable is present with a malformed
*non-empty* value (one that fails Go-string unquoting or JSON parsing),
construction returns a parse error naming the variable and no registry is
produced; a present-but-empty value falls through to simple-list evaluation
without error. -/
theorem checkForScenarios_malformed (env : LookupFunc) (s : String)
    (h : env InstanceScenarios = some s) :
    (s ≠ "" → unquote s = none →
      newRemoteRegistry env = Except.error "unqouting K6_INSTANCE_SCENARIOS: invalid syntax") ∧
    (∀ j e, s ≠ "" → unquote s = some j → parseScenariosDoc j = Except.error e →
      newRemoteRegistry env = Except.error ("parsing K6_INSTANCE_SCENARIOS: " ++ e)) ∧
    (s = "" → newRemoteRegistry env =
      Except.ok { isRemote := (checkForBrowserWSURLs env).1,
                  wsURLs := (checkForBrowserWSURLs env).2 }) := by
  refine ⟨fun hne hu => ?_, fun j e hne hu hp => ?_, fun he => ?_⟩
  · simp [newRemoteRegistry, checkForScenarios, h, hne, hu]
  · simp [newRemoteRegistry, checkForScenarios, h, hne, hu, hp]
  · subst he
    simp [newRemoteRegistry, checkForScenarios, h]

/-- Environment carrying a Go-quoted but truncated JSON document. -/
def envC2b : LookupFunc := fun k =>
  if k = InstanceScenarios then some "\"[\x7b\"" else none

/-- Environment carrying a value that is not a Go string literal. -/
def envC2c : LookupFunc := fun k => if k = InstanceScenarios then some "[" else none

/-- Environment with an empty scenarios value and a simple WS list. -/
def envC2d : LookupFunc := fun k =>
  if k = InstanceScenarios then some "" else if k = WebSocketURLs then some "X,Y" else none

/-- Witness for claim C2 (amended): truncated JSON errors with the variable
named, an unquotable value errors with the variable named, and an empty value
falls through to the simple list. -/
theorem checkForScenarios_malformed_witness :
    newRemoteRegistry envC2b =
      Except.error ("parsing K6_INSTANCE_SCENARIOS: " ++ "invalid JSON syntax") ∧
    newRemoteRegistry envC2c = Except.error "unqouting K6_INSTANCE_SCENARIOS: invalid syntax" ∧
    newRemoteRegistry envC2d = Except.ok { isRemote := true, wsURLs := ["X", "Y"] } :=
  ⟨(checkForScenarios_malformed envC2b "\"[\x7b\"" rfl).2.1 "[\x7b" "invalid JSON syntax"
      (by decide) rfl rfl,
   (checkForScenarios_malformed envC2c "[" rfl).1 (by decide) rfl,
   (checkForScenarios_malformed envC2d "" rfl).2.2 rfl⟩

/-- Environment whose scenarios variable holds a backquoted document. -/
def envC10a : LookupFunc := fun k => if k = InstanceScenarios then some "`[]`" else none

/-- Claim C10 counterexample: the value is a backquoted Go string literal —
not the double-quoted form the claim requires — and is non-empty, yet
construction does not fail with an unquoting error: unquoting succeeds (Go
`strconv.Unquote` also accepts backquoted and single-quoted literals) and
`newRemoteRegistry` returns a registry. -/
theorem unquote_backquoted_ok :
    envC10a InstanceScenarios = some "`[]`" ∧ "`[]`" ≠ "" ∧
    newRemoteRegistry envC10a = Except.ok { isRemote := false, wsURLs := [] } :=
  ⟨rfl, by decide, rfl⟩

/-- Claim C10 (amended): a present non-empty value is first interpreted as a
Go string literal (double-quoted, backquoted, or single-quoted) before JSON
parsing: a value in none of those quoted forms — even syntactically valid raw
JSON — causes construction to fail with an unquoting error; JSON parsing
applies to the unquoted text; and a present-but-empty value is treated like
an absent one, falling through to simple-list evaluation without error. -/
theorem unquote_before_parse (env : LookupFunc) (s : String)
    (h : env InstanceScenarios = some s) :
    (s ≠ "" → unquote s = none →
      newRemoteRegistry env = Except.error "unqouting K6_INSTANCE_SCENARIOS: invalid syntax") ∧
    (∀ j ss, s ≠ "" → unquote s = some j → parseScenariosDoc j = Except.ok ss →
      collectHandles ss ≠ [] →
      newRemoteRegistry env = Except.ok { isRemote := true, wsURLs := collectHandles ss }) ∧
    (s = "" → newRemoteRegistry env =
      Except.ok { isRemote := (checkForBrowserWSURLs env).1,
                  wsURLs := (checkForBrowserWSURLs env).2 }) := by
  refine ⟨fun hne hu => ?_, fun j ss hne hu hp hc => ?_, fun he => ?_⟩
  · simp [newRemoteRegistry, checkForScenarios, h, hne, hu]
  · simp [newRemoteRegistry, checkForScenarios, h, hne, hu, hp, hc]
  · subst he
    simp [newRemoteRegistry, checkForScenarios, h]

/-- Environment whose scenarios variable holds raw, unquoted JSON. -/
def envC10b : LookupFunc := fun k => if k = InstanceScenarios then some "[]" else none

/-- Environment whose scenarios variable holds a quoted one-handle document. -/
def envC10c : LookupFunc := fun k =>
  if k = InstanceScenarios then
    some "\"[\x7b\\\"browsers\\\":[\x7b\\\"handle\\\":\\\"H1\\\"\x7d]\x7d]\""
  else none

/-- Environment with an empty scenarios value and a simple WS value. -/
def envC10d : LookupFunc := fun k =>
  if k = InstanceScenarios then some "" else if k = WebSocketURLs then some "W" else none

/-- Witness for claim C10 (amended): raw JSON fails with an unquoting error,
a quoted document is unquoted and then parsed, and an empty value falls
through without error. -/
theorem unquote_before_parse_witness :
    newRemoteRegistry envC10b = Except.error "unqouting K6_INSTANCE_SCENARIOS: invalid syntax" ∧
    newRemoteRegistry envC10c = Except.ok { isRemote := true, wsURLs := ["H1"] } ∧
    newRemoteRegistry envC10d = Except.ok { isRemote := true, wsURLs := ["W"] } :=
  ⟨(unquote_before_parse envC10b "[]" rfl).1 (by decide) rfl,
   (unquote_before_parse envC10c "\"[\x7b\\\"browsers\\\":[\x7b\\\"handle\\\":\\\"H1\\\"\x7d]\x7d]\"" rfl).2.1
      "[\x7b\"browsers\":[\x7b\"handle\":\"H1\"\x7d]\x7d]"
      [{ id := "", browsers := [{ handle := "H1" }] }]
      (by decide) rfl rfl (by decide),
   (unquote_before_parse envC10d "" rfl).2.2 rfl⟩

/-- Claim C3: when the structured document parses and yields at least one
non-blank handle, the endpoint set is exactly those handles (collected across
all scenarios, in order) and remote mode is enabled — independently of the
simple comma-separated list, which is never consulted; when the document
yields zero non-blank handles, evaluation falls through to the simple-list
evaluation instead. -/
theorem scenarios_precedence (env : LookupFunc) (s j : String) (ss : List Scenario)
    (h : env InstanceScenarios = some s) (hne : s ≠ "")
    (hu : unquote s = some j) (hp : parseScenariosDoc j = Except.ok ss) :
    (collectHandles ss ≠ [] →
      newRemoteRegistry env = Except.ok { isRemote := true, wsURLs := collectHandles ss }) ∧
    (collectHandles ss = [] →
      newRemoteRegistry env =
        Except.ok { isRemote := (checkForBrowserWSURLs env).1,
                    wsURLs := (checkForBrowserWSURLs env).2 }) := by
  refine ⟨fun hc => ?_, fun hc => ?_⟩ <;>
    simp [newRemoteRegistry, checkForScenarios, h, hne, hu, hp, hc]

/-- Environment with a two-scenario quoted document (one blank handle) and a
competing simple WS value. -/
def envC3a : LookupFunc := fun k =>
  if k = InstanceScenarios then
    some "\"[\x7b\\\"id\\\":\\\"s1\\\",\\\"browsers\\\":[\x7b\\\"handle\\\":\\\"A\\\"\x7d,\x7b\\\"handle\\\":\\\" \\\"\x7d]\x7d,\x7b\\\"id\\\":\\\"s2\\\",\\\"browsers\\\":[\x7b\\\"handle\\\":\\\"B\\\"\x7d]\x7d]\""
  else if k = WebSocketURLs then some "Z" else none

/-- Environment with an all-blank quoted document and a simple WS value. -/
def envC3b : LookupFunc := fun k =>
  if k = InstanceScenarios then
    some "\"[\x7b\\\"browsers\\\":[\x7b\\\"handle\\\":\\\" \\\"\x7d]\x7d]\""
  else if k = WebSocketURLs then some "Z" else none

/-- Witness for claim C3: the document's non-blank handles win over the
simple list in order across scenarios, and an all-blank document falls
through to the simple list. -/
theorem scenarios_precedence_witness :
    newRemoteRegistry envC3a = Except.ok { isRemote := true, wsURLs := ["A", "B"] } ∧
    newRemoteRegistry envC3b = Except.ok { isRemote := true, wsURLs := ["Z"] } :=
  ⟨(scenarios_precedence envC3a
      "\"[\x7b\\\"id\\\":\\\"s1\\\",\\\"browsers\\\":[\x7b\\\"handle\\\":\\\"A\\\"\x7d,\x7b\\\"handle\\\":\\\" \\\"\x7d]\x7d,\x7b\\\"id\\\":\\\"s2\\\",\\\"browsers\\\":[\x7b\\\"handle\\\":\\\"B\\\"\x7d]\x7d]\""
      "[\x7b\"id\":\"s1\",\"browsers\":[\x7b\"handle\":\"A\"\x7d,\x7b\"handle\":\" \"\x7d]\x7d,\x7b\"id\":\"s2\",\"browsers\":[\x7b\"handle\":\"B\"\x7d]\x7d]"
      [{ id := "s1", browsers := [{ handle := "A" }, { handle := " " }] },
       { id := "s2", browsers := [{ handle := "B" }] }]
      rfl (by decide) rfl rfl).1 (by decide),
   (scenarios_precedence envC3b
      "\"[\x7b\\\"browsers\\\":[\x7b\\\"handle\\\":\\\" \\\"\x7d]\x7d]\""
      "[\x7b\"browsers\":[\x7b\"handle\":\" \"\x7d]\x7d]"
      [{ id := "", browsers := [{ handle := " " }] }]
      rfl (by decide) rfl rfl).2 rfl⟩

/-- `checkForScenarios` only enables remote mode with a non-empty URL list. -/
theorem checkForScenarios_true_nonempty (env : LookupFunc) (urls : List String)
    (h : checkForScenarios env = Except.ok (true, urls)) : urls ≠ [] := by
  cases henv : env InstanceScenarios with
  | none => simp [checkForScenarios, henv] at h
  | some s =>
    simp only [checkForScenarios, henv] at h
    by_cases he : s = ""
    · rw [if_pos he] at h; simp at h
    · rw [if_neg he] at h
      cases hu : unquote s with
      | none => simp [hu] at h
      | some j =>
        simp only [hu] at h
        cases hp : parseScenariosDoc j with
        | error e => simp [hp] at h
        | ok ss =>
          simp only [hp] at h
          by_cases hc : collectHandles ss = []
          · simp [hc] at h
          · rw [if_neg hc] at h
            simp only [Except.ok.injEq, Prod.mk.injEq] at h
            rw [← h.2]
            exact hc

/-- `checkForBrowserWSURLs` only enables remote mode with a non-empty URL
list: a comma-free value yields a singleton and a comma-containing value
yields at least two parts of which at most the last is dropped. -/
theorem checkForBrowserWSURLs_true_nonempty (env : LookupFunc)
    (h : (checkForBrowserWSURLs env).1 = true) : (checkForBrowserWSURLs env).2 ≠ [] := by
  cases henv : env WebSocketURLs with
  | none => simp [checkForBrowserWSURLs, henv] at h
  | some s =>
    simp only [checkForBrowserWSURLs, henv] at h ⊢
    by_cases hc : s.toList.contains ',' = false
    · rw [if_pos hc]
      simp
    · rw [if_neg hc]
      have hmem : ',' ∈ s.toList := by
        have hb : s.toList.contains ',' = true := by
          cases hb2 : s.toList.contains ',' with
          | false => exact absurd hb2 hc
          | true => rfl
        simpa using hb
      have hlen : 2 ≤ (splitOnChar ',' s.data).length := by
        simpa using splitOnChar_length_ge_two ',' s.toList hmem
      split
      · intro hnil
        have hlen2 := congrArg List.length hnil
        simp [List.length_dropLast] at hlen2
        omega
      · intro hnil
        have hlen2 := congrArg List.length hnil
        simp at hlen2
        rw [hlen2] at hlen
        simp at hlen

/-- A successfully constructed remote registry in remote mode always carries
a non-empty endpoint list. -/
theorem remote_nonempty (env : LookupFunc) (r : remoteRegistry)
    (hr : newRemoteRegistry env = Except.ok r) (hi : r.isRemote = true) :
    r.wsURLs ≠ [] := by
  unfold newRemoteRegistry at hr
  cases hcs : checkForScenarios env with
  | error e => rw [hcs] at hr; exact Except.noConfusion hr
  | ok p =>
    obtain ⟨b, urls⟩ := p
    cases b with
    | true =>
      rw [hcs] at hr
      simp only [Except.ok.injEq] at hr
      subst hr
      exact checkForScenarios_true_nonempty env urls hcs
    | false =>
      rw [hcs] at hr
      simp only [Except.ok.injEq] at hr
      subst hr
      exact checkForBrowserWSURLs_true_nonempty env hi

/-- Claim C9: for every environment for which `newRemoteRegistry` succeeds,
a registry in remote mode has a non-empty endpoint list; consequently the
random index drawn inside `isRemoteBrowser` is within bounds and the call
never hits the empty-bound panic (`isSome` holds for every draw). -/
theorem remote_wsURLs_nonempty (env : LookupFunc) (r : remoteRegistry)
    (hr : newRemoteRegistry env = Except.ok r) (hi : r.isRemote = true) :
    r.wsURLs ≠ [] ∧ ∀ draw : Nat, (isRemoteBrowser r draw).isSome = true := by
  have hne := remote_nonempty env r hr hi
  refine ⟨hne, fun draw => ?_⟩
  cases hws : r.wsURLs with
  | nil => exact absurd hws hne
  | cons u us => simp [isRemoteBrowser, hi, hws]

/-- Environment for the claim C9 witness: a trailing-comma WS list with an
empty entry. -/
def envC9 : LookupFunc := fun k => if k = WebSocketURLs then some "A,," else none

/-- Witness for claim C9: the constructed registry has a non-empty list and
a concrete draw is serviced without the empty-bound panic. -/
theorem remote_wsURLs_nonempty_witness :
    (remoteRegistry.mk true ["A", ""]).wsURLs ≠ [] ∧
    (isRemoteBrowser (remoteRegistry.mk true ["A", ""]) 7).isSome = true :=
  ⟨(remote_wsURLs_nonempty envC9 (remoteRegistry.mk true ["A", ""]) rfl rfl).1,
   (remote_wsURLs_nonempty envC9 (remoteRegistry.mk true ["A", ""]) rfl rfl).2 7⟩

/-- Claim C7: for every successfully constructed remote registry, if it is
not in remote mode `isRemoteBrowser` returns the empty string and false;
if it is in remote mode every call returns some element of the configured
set together with true — never a value outside the set and without
panicking, even when the set contains empty-string entries. -/
theorem isRemoteBrowser_spec (env : LookupFunc) (r : remoteRegistry) (draw : Nat)
    (hr : newRemoteRegistry env = Except.ok r) :
    (r.isRemote = false → isRemoteBrowser r draw = some ("", false)) ∧
    (r.isRemote = true →
      ∃ url, url ∈ r.wsURLs ∧ isRemoteBrowser r draw = some (url, true)) := by
  refine ⟨fun hf => by simp [isRemoteBrowser, hf], fun ht => ?_⟩
  have hne := remote_nonempty env r hr ht
  cases hws : r.wsURLs with
  | nil => exact absurd hws hne
  | cons u us =>
    refine ⟨(u :: us).get ⟨draw % (us.length + 1), Nat.mod_lt _ (Nat.succ_pos us.length)⟩,
            ?_, ?_⟩
    · exact List.get_mem _ _ _
    · simp [isRemoteBrowser, ht, hws]

/-- Environment for the claim C7 witness: a WS list with an empty entry. -/
def envC7 : LookupFunc := fun k => if k = WebSocketURLs then some "A,," else none

/-- Environment for the claim C7 witness: no remote configuration at all. -/
def envC7b : LookupFunc := fun _ => none

/-- Witness for claim C7: a remote registry with an empty-string entry
serves a draw from inside the set, and a non-remote registry reports
not-remote. -/
theorem isRemoteBrowser_spec_witness :
    (∃ url, url ∈ (remoteRegistry.mk true ["A", ""]).wsURLs ∧
      isRemoteBrowser (remoteRegistry.mk true ["A", ""]) 5 = some (url, true)) ∧
    isRemoteBrowser (remoteRegistry.mk false []) 5 = some ("", false) :=
  ⟨(isRemoteBrowser_spec envC7 (remoteRegistry.mk true ["A", ""]) 5 rfl).2 rfl,
   (isRemoteBrowser_spec envC7b (remoteRegistry.mk false []) 5 rfl).1 rfl⟩

end XK6
